import Mathlib

/-!
Verification development for the repo2doc pipeline.

Shallow embedding of the core data model and the pure parts of the
pipeline nodes (`state.py`, `nodes/node2_filter_files.py`,
`nodes/node3_chunk_files.py`, `nodes/node4_generate_doc.py`,
`utils/token_counter.py`, `utils/file_utils.py`).

Python strings are modelled as Lean `String` (a sequence of code
points); where the source manipulates strings character by character
the embedding works on `String.data : List Char`. Python's arbitrary
precision `int` is modelled as `Int` where a value can be negative
(token budgets) and as `Nat` for counts that the source only ever
derives from lengths. Python's stable `sorted` is modelled by
`List.insertionSort` with the non-strict key relation, which is the
standard stable sort: both produce the unique output that is sorted
for the key preorder and keeps equal-key elements in input order.
-/

set_option maxRecDepth 8000

namespace Repo2Doc

/-- `FileInfo` dataclass from `state.py`. -/
structure FileInfo where
  path : String
  absolute_path : String
  content : String
  extension : String
  size : Int
  token_count : Int
deriving DecidableEq, Repr

/-- `CodeChunk` dataclass from `state.py`. -/
structure CodeChunk where
  chunk_id : Nat
  files : List FileInfo
  combined_content : String
  token_count : Int
deriving DecidableEq, Repr

/-- `Repo2DocState` TypedDict from `state.py`. -/
structure Repo2DocState where
  repo_path : String
  config_path : Option String
  all_files : List FileInfo
  filtered_files : List FileInfo
  chunks : List CodeChunk
  current_chunk_index : Nat
  total_chunks : Nat
  current_document : String
  intermediate_documents : List String
  status : String
  error : Option String
  total_files : Nat
  total_tokens : Int
  processed_chunks : Nat
deriving DecidableEq, Repr

/-- `create_initial_state` from `state.py`. -/
def create_initial_state (repo_path : String) (config_path : Option String) :
    Repo2DocState where
  repo_path := repo_path
  config_path := config_path
  all_files := []
  filtered_files := []
  chunks := []
  current_chunk_index := 0
  total_chunks := 0
  current_document := ""
  intermediate_documents := []
  status := "initialized"
  error := none
  total_files := 0
  total_tokens := 0
  processed_chunks := 0

/-- The fields of `LLMConfig` (`config_loader.py`) that the verified
nodes read. `model`, `temperature`, `api_key` and `base_url` only
parameterize the external model collaborator, which is abstracted as an
oracle below. -/
structure LLMConfig where
  max_input_tokens : Int
  reserved_tokens : Int
deriving DecidableEq, Repr

/-- The part of `Config` (`config_loader.py`) read by `chunk_files`. -/
structure Config where
  llm : LLMConfig
deriving DecidableEq, Repr

/-! ## Token counter (`utils/token_counter.py`) -/

/-- `estimate_tokens` from `utils/token_counter.py`: `0` on falsy
(empty) input, otherwise `len(text) // 3`. -/
def estimate_tokens (text : String) : Nat :=
  if text = "" then 0 else text.length / 3

/-- `count_tokens` from `utils/token_counter.py`. The tiktoken encoder
is an external collaborator; it is abstracted as a pure function from
text to a token-id sequence (the source memoizes the encoder with
`lru_cache`, so within a run it is a fixed pure function). The source
returns `0` on falsy input and otherwise `len(encoder.encode(text))`. -/
def count_tokens (encode : String → List Nat) (text : String) : Nat :=
  if text = "" then 0 else (encode text).length

/-! ## Character and string helpers

The prioritizer manipulates paths character by character; the helpers
below model the Python string operations it uses (`str.split('/')`,
`str.lower()`, substring membership `in`, `os.path.basename`,
`os.path.splitext`) on `List Char`, i.e. on code-point sequences,
which is exactly Python's string model. -/

/-- Python `str.split(sep)` for a one-character separator: always at
least one (possibly empty) part, empty parts kept. -/
def splitChar (sep : Char) : List Char → List (List Char)
  | [] => [[]]
  | c :: rest =>
    let r := splitChar sep rest
    if c = sep then [] :: r
    else
      match r with
      | [] => [[c]]
      | h :: t => (c :: h) :: t

/-- Python `str.lower()` restricted to ASCII (the source paths the
claims quantify over are ASCII; on ASCII the two functions agree). -/
def charLower (c : Char) : Char :=
  if 'A' ≤ c ∧ c ≤ 'Z' then Char.ofNat (c.toNat + 32) else c

/-- Code-point-wise lowering, Python `str.lower()` on ASCII text. -/
def lowerChars (cs : List Char) : List Char := cs.map charLower

/-- Python substring membership `needle in hay`. -/
def containsSub (needle : List Char) : List Char → Bool
  | [] => needle.isEmpty
  | c :: rest => needle.isPrefixOf (c :: rest) || containsSub needle rest

/-- Python strict lexicographic comparison of two code-point
sequences (`str.__lt__`: code-point order, shorter prefix first). -/
def lexLt : List Char → List Char → Bool
  | _, [] => false
  | [], _ :: _ => true
  | a :: as, b :: bs => decide (a < b) || (a == b && lexLt as bs)

/-- Non-strict string comparison: for a total strict order,
`a <= b` iff `not (b < a)`, which is how Python's sort consumes it. -/
def lexLe (a b : List Char) : Bool := !(lexLt b a)

/-! ## File prioritizer (`nodes/node3_chunk_files.py`, `_sort_files_by_priority`) -/

/-- `path.replace('\\', '/').split('/')` from the classification loop. -/
def pathParts (p : String) : List (List Char) :=
  splitChar '/' (p.data.map fun c => if c = '\\' then '/' else c)

/-- `filename = parts[-1].lower()` from the classification loop. -/
def classFileName (f : FileInfo) : List Char :=
  lowerChars ((pathParts f.path).getLastD [])

/-- `is_root = len(parts) == 1`. -/
def isRootFile (f : FileInfo) : Bool := (pathParts f.path).length == 1

/-- `'readme' in filename`. -/
def hasReadme (f : FileInfo) : Bool := containsSub "readme".data (classFileName f)

/-- The `config_names` set literal from `_sort_files_by_priority`. -/
def config_names : List String :=
  ["package.json", "pyproject.toml", "setup.py", "requirements.txt",
   "pom.xml", "build.gradle", "go.mod", "Cargo.toml",
   "tsconfig.json", "webpack.config.js", "vite.config.js",
   ".env.example", "docker-compose.yml", "Dockerfile",
   "Makefile", "CMakeLists.txt"]

/-- `filename in {f.lower() for f in config_names}`. -/
def isConfigName (f : FileInfo) : Bool :=
  (config_names.map fun s => lowerChars s.data).contains (classFileName f)

/-- `module_name = parts[0]` for a non-root file. -/
def moduleName (f : FileInfo) : List Char := (pathParts f.path).headD []

/-- `os.path.basename` (POSIX): the part after the last `'/'`.
Note the source applies it to the raw `f.path`, without the backslash
normalization used by the classification loop. -/
def baseNameChars (p : String) : List Char := (splitChar '/' p.data).getLastD []

/-- Index of the last `'.'` in a code-point sequence, if any. -/
def lastDotIdx (cs : List Char) : Option Nat :=
  ((cs.enum.filter fun p => p.2 == '.').map Prod.fst).getLast?

/-- `os.path.splitext(filename)[0]` for a basename: drop the suffix
from the last dot on, unless every character before that dot is itself
a dot (leading dots never start an extension). -/
def splitextRoot (cs : List Char) : List Char :=
  match lastDotIdx cs with
  | none => cs
  | some j => if (cs.take j).any (fun c => !(c == '.')) then cs.take j else cs

/-- The `entry_patterns` list from `_sort_files_by_priority`. -/
def entry_patterns : List String := ["__init__", "index", "main", "app", "mod", "lib"]

/-- First `i` with `entry_patterns[i] in name_without_ext`, if any. -/
def findEntryIdx (stem : List Char) : Option Nat :=
  (entry_patterns.enum.find? fun p => containsSub p.2.data stem).map Prod.fst

/-- `file_priority` from `_sort_files_by_priority`: `(0, i, filename)`
for the first matching entry pattern, else `(1, 0, filename)`, with
`filename = os.path.basename(f.path).lower()`. -/
def file_priority (f : FileInfo) : Nat × Nat × List Char :=
  let filename := lowerChars (baseNameChars f.path)
  match findEntryIdx (splitextRoot filename) with
  | some i => (0, i, filename)
  | none => (1, 0, filename)

/-- Python's lexicographic comparison of `file_priority` key tuples. -/
def prioLe (a b : Nat × Nat × List Char) : Bool :=
  decide (a.1 < b.1) ||
    (a.1 == b.1 &&
      (decide (a.2.1 < b.2.1) || (a.2.1 == b.2.1 && lexLe a.2.2 b.2.2)))

/-- Key relation of `sorted(..., key=lambda f: f.path.lower())`. -/
def rPathLower (a b : FileInfo) : Prop :=
  lexLe (lowerChars a.path.data) (lowerChars b.path.data) = true

/-- Key relation of `sorted(..., key=file_priority)`. -/
def rPrio (a b : FileInfo) : Prop :=
  prioLe (file_priority a) (file_priority b) = true

/-- Key relation of `sorted(module_files.keys())`. -/
def rNameLe (a b : List Char) : Prop := lexLe a b = true

instance : DecidableRel rPathLower := fun a b =>
  inferInstanceAs (Decidable (lexLe (lowerChars a.path.data) (lowerChars b.path.data) = true))

instance : DecidableRel rPrio := fun a b =>
  inferInstanceAs (Decidable (prioLe (file_priority a) (file_priority b) = true))

instance : DecidableRel rNameLe := fun a b =>
  inferInstanceAs (Decidable (lexLe a b = true))

/-- `_sort_files_by_priority` from `nodes/node3_chunk_files.py`:
readme files, then root config files, then remaining root files, then
module groups in alphabetical module order, with the entry-pattern
key inside the last two groups. Python's stable `sorted` is modelled
by `List.insertionSort` over the non-strict key relation; the
single-pass bucket classification is modelled by order-preserving
filters. -/
def _sort_files_by_priority (files : List FileInfo) : List FileInfo :=
  let readme_files := files.filter fun f => isRootFile f && hasReadme f
  let root_config_files :=
    files.filter fun f => isRootFile f && !hasReadme f && isConfigName f
  let root_other_files :=
    files.filter fun f => isRootFile f && !hasReadme f && !isConfigName f
  let non_root := files.filter fun f => !isRootFile f
  let module_names := List.insertionSort rNameLe (non_root.map moduleName).dedup
  List.insertionSort rPathLower readme_files
    ++ List.insertionSort rPathLower root_config_files
    ++ List.insertionSort rPrio root_other_files
    ++ (module_names.map fun m =>
          List.insertionSort rPrio (non_root.filter fun f => moduleName f == m)).flatten

/-! ## Chunk packer (`nodes/node3_chunk_files.py`) -/

/-- `format_file_for_prompt` from `utils/file_utils.py`. -/
def format_file_for_prompt (file_path content : String) : String :=
  "文件路径: " ++ file_path ++ "\n" ++ String.mk (List.replicate 40 '-')
    ++ "\n" ++ content ++ "\n" ++ String.mk (List.replicate 40 '-')

/-- `_create_chunk` from `nodes/node3_chunk_files.py`. The combined
content is `"\n\n" + "=" * 60 + "\n\n".join(combined_parts)` exactly as
the source writes it: by Python operator precedence the join separator
is only `"\n\n"`, and the `'='` banner is prepended once. -/
def _create_chunk (chunk_id : Nat) (files : List FileInfo) (token_count : Int) :
    CodeChunk where
  chunk_id := chunk_id
  files := files
  combined_content :=
    "\n\n" ++ String.mk (List.replicate 60 '=')
      ++ String.intercalate "\n\n"
          (files.map fun fi => format_file_for_prompt fi.path fi.content)
  token_count := token_count

/-- The formatted cost `file_info.token_count + 100` of a file. -/
def fcost (f : FileInfo) : Int := f.token_count + 100

/-- Aggregate formatted cost of a file list. -/
def costSum (l : List FileInfo) : Int := (l.map fcost).sum

/-- The `for file_info in sorted_files` loop of `chunk_files`, with the
trailing flush of the last accumulator. `cur`/`curTok` are
`current_chunk_files`/`current_chunk_tokens`, `cid` is `chunk_id`. -/
def packLoop (cap : Int) : List FileInfo → List FileInfo → Int → Nat → List CodeChunk
  | [], cur, curTok, cid =>
    if cur.isEmpty then [] else [_create_chunk cid cur curTok]
  | f :: rest, cur, curTok, cid =>
    let ft := fcost f
    if curTok + ft > cap then
      if cur.isEmpty then packLoop cap rest [f] ft cid
      else _create_chunk cid cur curTok :: packLoop cap rest [f] ft (cid + 1)
    else packLoop cap rest (cur ++ [f]) (curTok + ft) cid

/-- The packer proper: the loop of `chunk_files` started on the empty
accumulator with `chunk_id = 0`. -/
def pack (cap : Int) (files : List FileInfo) : List CodeChunk :=
  packLoop cap files [] 0 0

/-- `chunk_files` from `nodes/node3_chunk_files.py`. -/
def chunk_files (state : Repo2DocState) (config : Config) : Repo2DocState :=
  match state.filtered_files with
  | [] => { state with status := "error", error := some "没有筛选后的文件" }
  | _ :: _ =>
    let sorted_files := _sort_files_by_priority state.filtered_files
    let cap := config.llm.max_input_tokens - config.llm.reserved_tokens
    let chunks := pack cap sorted_files
    { state with
        chunks := chunks
        total_chunks := chunks.length
        current_chunk_index := 0
        status := "chunked" }

/-! ## Filter-stage path sort (`nodes/node2_filter_files.py`) -/

/-- Key relation of `filtered_files.sort(key=lambda f: f.path)`,
using Mathlib's code-point-lexicographic order on `String`, which
coincides with Python's `str` comparison. -/
def rPath (a b : FileInfo) : Prop := a.path ≤ b.path

instance : DecidableRel rPath := fun a b =>
  inferInstanceAs (Decidable (a.path ≤ b.path))

/-- Line 66 of `nodes/node2_filter_files.py`: the in-place stable sort
of the filtered list by raw path that canonicalizes the order handed
to the chunking node. -/
def sortFilteredByPath (files : List FileInfo) : List FileInfo :=
  List.insertionSort rPath files

/-- The prioritizer as the pipeline invokes it: the filter stage's
path sort followed by `_sort_files_by_priority`. -/
def prioritizePipeline (files : List FileInfo) : List FileInfo :=
  _sort_files_by_priority (sortFilteredByPath files)

instance : IsTotal FileInfo rPath := ⟨fun a b => le_total a.path b.path⟩

instance : IsTrans FileInfo rPath := ⟨fun _ _ _ h1 h2 => le_trans h1 h2⟩

/-- Chunk rendering as §6 of the spec words it (a refinement target,
not source code): consecutive files joined by a blank line plus a
60-character `'='` separator line. -/
def spec_combined_content (files : List FileInfo) : String :=
  String.intercalate ("\n\n" ++ String.mk (List.replicate 60 '=') ++ "\n")
    (files.map fun fi => format_file_for_prompt fi.path fi.content)

/-! ## Incremental synthesizer (`nodes/node4_generate_doc.py`)

`_generate_first_chunk` and `_generate_next_chunk` wrap the external
model collaborator: they format prompts from the chunk, its 1-based
index, the total chunk count (and, for the incremental case, the
previous document) and return the model's text or raise. They are
abstracted as two oracles returning `Except`: `Except.error e` models
a raised exception with message `e`.

The `for` loop of `generate_doc` works on local variables
`current_document` and `intermediate_documents`; the latter is the
very list object stored in the state (`state.get` returns it by
reference), and `list.append` mutates it in place. Hence on the error
return the state already carries the successful chunks' documents in
`intermediate_documents`, while `state["current_document"]` is only
assigned after the loop completes. The embedding makes that aliasing
explicit by writing the accumulated list into the returned state on
both exits and the accumulated document only on the success exit. -/

/-- The `for i, chunk in enumerate(chunks)` loop of `generate_doc`.
`i` is the 0-based index, `total` is `len(chunks)`, `curDoc` and
`inter` are the local `current_document` / `intermediate_documents`. -/
def genLoop (genFirst : CodeChunk → Nat → Nat → Except String String)
    (genNext : CodeChunk → Nat → Nat → String → Except String String)
    (st : Repo2DocState) (total : Nat) :
    List CodeChunk → Nat → String → List String → Repo2DocState
  | [], _, curDoc, inter =>
    { st with
        current_document := curDoc
        intermediate_documents := inter
        processed_chunks := total
        status := "generated" }
  | c :: rest, i, curDoc, inter =>
    match (if i = 0 then genFirst c (i + 1) total else genNext c (i + 1) total curDoc) with
    | Except.ok newDoc =>
      genLoop genFirst genNext st total rest (i + 1) newDoc (inter ++ [newDoc])
    | Except.error e =>
      { st with
          status := "error"
          error := some ("处理块 " ++ toString (i + 1) ++ " 时出错: " ++ e)
          intermediate_documents := inter }

/-- `generate_doc` from `nodes/node4_generate_doc.py`. -/
def generate_doc (genFirst : CodeChunk → Nat → Nat → Except String String)
    (genNext : CodeChunk → Nat → Nat → String → Except String String)
    (st : Repo2DocState) : Repo2DocState :=
  match st.chunks with
  | [] => { st with status := "error", error := some "没有代码块可处理" }
  | _ :: _ =>
    genLoop genFirst genNext st st.chunks.length st.chunks 0
      st.current_document st.intermediate_documents

instance {ε α : Type} [DecidableEq ε] [DecidableEq α] : DecidableEq (Except ε α) := fun
  | Except.ok a, Except.ok b =>
    match decEq a b with
    | isTrue h => isTrue (by rw [h])
    | isFalse h => isFalse (by intro hh; cases hh; exact h rfl)
  | Except.error a, Except.error b =>
    match decEq a b with
    | isTrue h => isTrue (by rw [h])
    | isFalse h => isFalse (by intro hh; cases hh; exact h rfl)
  | Except.ok _, Except.error _ => isFalse (by intro hh; cases hh)
  | Except.error _, Except.ok _ => isFalse (by intro hh; cases hh)

/-- A successful run of the loop body over a chunk prefix: starting at
0-based index `i` with current document `cur`, each oracle call
succeeds and returns the corresponding entry of `docs`. -/
def okRun (genFirst : CodeChunk → Nat → Nat → Except String String)
    (genNext : CodeChunk → Nat → Nat → String → Except String String)
    (total : Nat) : Nat → String → List CodeChunk → List String → Bool
  | _, _, [], [] => true
  | i, cur, c :: cs, d :: ds =>
    decide ((if i = 0 then genFirst c (i + 1) total else genNext c (i + 1) total cur)
        = Except.ok d)
      && okRun genFirst genNext total (i + 1) d cs ds
  | _, _, [], _ :: _ => false
  | _, _, _ :: _, [] => false

/-! ## Concrete fixtures (used by witnesses and counterexamples) -/

/-- A `FileInfo` as `scan_files` builds one, with empty content and
zero token count. -/
def mkFile (p : String) : FileInfo :=
  { path := p, absolute_path := p, content := "", extension := "", size := 0,
    token_count := 0 }

/-- A small config: capacity `250 - 0 = 250`. -/
def demoCfg : Config := { llm := { max_input_tokens := 250, reserved_tokens := 0 } }

/-- Initial state carrying two small filtered files. -/
def demoState : Repo2DocState :=
  { create_initial_state "/repo" none with
      filtered_files := [mkFile "a.py", mkFile "b.py"] }

/-- A file whose formatted cost `500 + 100` exceeds the demo capacity. -/
def bigFile : FileInfo :=
  { path := "big.py", absolute_path := "/repo/big.py", content := "x",
    extension := ".py", size := 1, token_count := 500 }

/-- Initial state whose filtered list is just the oversized file. -/
def stBig : Repo2DocState :=
  { create_initial_state "/repo" none with filtered_files := [bigFile] }

/-- Chunks for the synthesizer fixtures. -/
def chunkA : CodeChunk := _create_chunk 0 [mkFile "a.py"] 100

/-- Second synthesizer fixture chunk. -/
def chunkB : CodeChunk := _create_chunk 1 [mkFile "b.py"] 100

/-- Third synthesizer fixture chunk. -/
def chunkC : CodeChunk := _create_chunk 2 [mkFile "c.py"] 100

/-- First-chunk oracle that always succeeds with document `"d1"`. -/
def genFdemo : CodeChunk → Nat → Nat → Except String String :=
  fun _ _ _ => Except.ok "d1"

/-- Incremental oracle that always raises `"boom"`. -/
def genNdemo : CodeChunk → Nat → Nat → String → Except String String :=
  fun _ _ _ _ => Except.error "boom"

/-- Incremental oracle that always succeeds with document `"d2"`. -/
def genNok : CodeChunk → Nat → Nat → String → Except String String :=
  fun _ _ _ _ => Except.ok "d2"

/-- A fresh initial state carrying three chunks. -/
def stGen : Repo2DocState :=
  { create_initial_state "/repo" none with chunks := [chunkA, chunkB, chunkC] }

/-- First file of the two-file rendering scenario. -/
def fileA : FileInfo :=
  { path := "a.py", absolute_path := "/repo/a.py", content := "x",
    extension := ".py", size := 1, token_count := 1 }

/-- Second file of the two-file rendering scenario. -/
def fileB : FileInfo :=
  { path := "b.py", absolute_path := "/repo/b.py", content := "y",
    extension := ".py", size := 1, token_count := 1 }

/-- The end-to-end prioritizer scenario of the spec, presented in the
path-sorted order in which the filter stage hands it over. -/
def demoRepoFiles : List FileInfo :=
  List.map mkFile
    ["README.md", "lib/helpers.js", "package.json", "src/index.js", "src/util.js"]

/-! ## Packer lemmas -/

theorem packLoop_flatten (cap : Int) :
    ∀ (files cur : List FileInfo) (curTok : Int) (cid : Nat),
      ((packLoop cap files cur curTok cid).map CodeChunk.files).flatten
        = cur ++ files := by
  intro files
  induction files with
  | nil =>
    intro cur curTok cid
    cases cur with
    | nil => simp [packLoop]
    | cons a as => simp [packLoop, _create_chunk]
  | cons f rest ih =>
    intro cur curTok cid
    by_cases hgt : curTok + fcost f > cap
    · cases cur with
      | nil => simp [packLoop, hgt, ih]
      | cons a as => simp [packLoop, hgt, _create_chunk, ih]
    · simp [packLoop, hgt, ih]

theorem packLoop_ids (cap : Int) :
    ∀ (files cur : List FileInfo) (curTok : Int) (cid : Nat),
      (packLoop cap files cur curTok cid).map CodeChunk.chunk_id
        = List.range' cid (packLoop cap files cur curTok cid).length := by
  intro files
  induction files with
  | nil =>
    intro cur curTok cid
    cases cur with
    | nil => simp [packLoop]
    | cons a as => simp [packLoop, _create_chunk, List.range'_succ]
  | cons f rest ih =>
    intro cur curTok cid
    by_cases hgt : curTok + fcost f > cap
    · cases cur with
      | nil => simp [packLoop, hgt, ih]
      | cons a as => simp [packLoop, hgt, _create_chunk, ih, List.range'_succ]
    · simp [packLoop, hgt, ih]

theorem packLoop_inv (cap : Int) :
    ∀ (files cur : List FileInfo) (curTok : Int) (cid : Nat),
      curTok = costSum cur →
      (curTok ≤ cap ∨ (∃ f, cur = [f] ∧ cap < fcost f) ∨ cur = []) →
      ∀ c ∈ packLoop cap files cur curTok cid,
        c.token_count = costSum c.files ∧ c.files ≠ [] ∧
          (c.token_count ≤ cap ∨ ∃ f, c.files = [f] ∧ cap < fcost f) := by
  intro files
  induction files with
  | nil =>
    intro cur curTok cid hsum hinv c hc
    cases cur with
    | nil => simp [packLoop] at hc
    | cons a as =>
      simp [packLoop] at hc
      subst hc
      refine ⟨by simpa [_create_chunk] using hsum, by simp [_create_chunk], ?_⟩
      rcases hinv with h | h | h
      · exact Or.inl (by simpa [_create_chunk] using h)
      · exact Or.inr (by simpa [_create_chunk] using h)
      · exact absurd h (by simp)
  | cons f rest ih =>
    intro cur curTok cid hsum hinv c hc
    have hsingle : fcost f = costSum [f] := by simp [costSum]
    have hsinv : fcost f ≤ cap ∨ (∃ g, [f] = [g] ∧ cap < fcost g) ∨ ([f] : List FileInfo) = [] := by
      rcases le_or_lt (fcost f) cap with h | h
      · exact Or.inl h
      · exact Or.inr (Or.inl ⟨f, rfl, h⟩)
    by_cases hgt : curTok + fcost f > cap
    · cases cur with
      | nil =>
        simp only [packLoop, List.isEmpty_nil, if_pos hgt] at hc
        exact ih [f] (fcost f) cid hsingle hsinv c (by simpa using hc)
      | cons a as =>
        simp only [packLoop, List.isEmpty_cons, if_pos hgt] at hc
        simp only [if_neg (by simp : ¬((false : Bool) = true)), List.mem_cons] at hc
        rcases hc with hc | hc
        · subst hc
          refine ⟨by simpa [_create_chunk] using hsum, by simp [_create_chunk], ?_⟩
          rcases hinv with h | h | h
          · exact Or.inl (by simpa [_create_chunk] using h)
          · exact Or.inr (by simpa [_create_chunk] using h)
          · exact absurd h (by simp)
        · exact ih [f] (fcost f) (cid + 1) hsingle hsinv c hc
    · simp only [packLoop, if_neg hgt] at hc
      refine ih (cur ++ [f]) (curTok + fcost f) cid ?_ (Or.inl (not_lt.mp hgt)) c hc
      simp [costSum, hsum]

theorem pack_chunk_inv (cap : Int) (files : List FileInfo) :
    ∀ c ∈ pack cap files,
      c.token_count = costSum c.files ∧ c.files ≠ [] ∧
        (c.token_count ≤ cap ∨ ∃ f, c.files = [f] ∧ cap < fcost f) :=
  packLoop_inv cap files [] 0 0 (by simp [costSum]) (Or.inr (Or.inr rfl))

theorem chunk_files_chunks_eq (st : Repo2DocState) (cfg : Config)
    (h : st.filtered_files ≠ []) :
    (chunk_files st cfg).chunks
      = pack (cfg.llm.max_input_tokens - cfg.llm.reserved_tokens)
          (_sort_files_by_priority st.filtered_files) := by
  rcases hfe : st.filtered_files with _ | ⟨f, fs⟩
  · exact absurd hfe h
  · simp [chunk_files, hfe]

theorem sort_singleton (f : FileInfo) : _sort_files_by_priority [f] = [f] := by
  unfold _sort_files_by_priority
  cases h1 : isRootFile f with
  | true =>
    cases h2 : hasReadme f with
    | true => simp [h1, h2, List.insertionSort, List.orderedInsert]
    | false =>
      cases h3 : isConfigName f with
      | true => simp [h1, h2, h3, List.insertionSort, List.orderedInsert]
      | false => simp [h1, h2, h3, List.insertionSort, List.orderedInsert]
  | false => simp [h1, List.insertionSort, List.orderedInsert]

theorem pack_single_oversized (cap : Int) (f : FileInfo) (h : cap < fcost f) :
    pack cap [f] = [_create_chunk 0 [f] (fcost f)] := by
  have h0 : cap < 0 + fcost f := by simpa using h
  simp [pack, packLoop, h0]

/-- C1: for every non-empty filtered file list and every capacity,
`chunk_files` produces chunks whose indices are exactly `0..N-1` with
no gaps, and whose file lists, concatenated in chunk order then
intra-chunk order, equal the prioritized input sequence exactly. -/
theorem chunk_files_exact_cover (st : Repo2DocState) (cfg : Config)
    (h : st.filtered_files ≠ []) :
    (chunk_files st cfg).chunks.map CodeChunk.chunk_id
        = List.range (chunk_files st cfg).chunks.length
    ∧ ((chunk_files st cfg).chunks.map CodeChunk.files).flatten
        = _sort_files_by_priority st.filtered_files := by
  rw [chunk_files_chunks_eq st cfg h]
  constructor
  · rw [show pack (cfg.llm.max_input_tokens - cfg.llm.reserved_tokens)
          (_sort_files_by_priority st.filtered_files)
        = packLoop (cfg.llm.max_input_tokens - cfg.llm.reserved_tokens)
            (_sort_files_by_priority st.filtered_files) [] 0 0 from rfl]
    rw [packLoop_ids]
    exact (List.range_eq_range' _).symm
  · simpa using
      packLoop_flatten (cfg.llm.max_input_tokens - cfg.llm.reserved_tokens)
        (_sort_files_by_priority st.filtered_files) [] 0 0

/-- Witness for C1 on a concrete two-file state. -/
theorem chunk_files_exact_cover_witness :
    (chunk_files demoState demoCfg).chunks.map CodeChunk.chunk_id
        = List.range (chunk_files demoState demoCfg).chunks.length
    ∧ ((chunk_files demoState demoCfg).chunks.map CodeChunk.files).flatten
        = _sort_files_by_priority demoState.filtered_files :=
  chunk_files_exact_cover demoState demoCfg (by decide)

/-- C2: every chunk produced by the packer either fits in the capacity
`max_input_tokens - reserved_tokens` or is a single file whose
formatted cost exceeds it. -/
theorem chunk_files_capacity (st : Repo2DocState) (cfg : Config) (c : CodeChunk)
    (h : st.filtered_files ≠ []) (hc : c ∈ (chunk_files st cfg).chunks) :
    c.token_count ≤ cfg.llm.max_input_tokens - cfg.llm.reserved_tokens
      ∨ ∃ f, c.files = [f]
          ∧ cfg.llm.max_input_tokens - cfg.llm.reserved_tokens
              < f.token_count + 100 := by
  rw [chunk_files_chunks_eq st cfg h] at hc
  simpa [fcost] using (pack_chunk_inv _ _ c hc).2.2

/-- Witness for C2 on a concrete two-file state. -/
theorem chunk_files_capacity_witness :
    (_create_chunk 0 [mkFile "a.py", mkFile "b.py"] 200).token_count
        ≤ demoCfg.llm.max_input_tokens - demoCfg.llm.reserved_tokens
      ∨ ∃ f, (_create_chunk 0 [mkFile "a.py", mkFile "b.py"] 200).files = [f]
          ∧ demoCfg.llm.max_input_tokens - demoCfg.llm.reserved_tokens
              < f.token_count + 100 :=
  chunk_files_capacity demoState demoCfg _ (by decide) (by decide)

/-- C3: every chunk's stored `token_count` is the sum over its files of
the file's `token_count` plus the per-file overhead constant 100. -/
theorem chunk_files_token_sum (st : Repo2DocState) (cfg : Config) (c : CodeChunk)
    (h : st.filtered_files ≠ []) (hc : c ∈ (chunk_files st cfg).chunks) :
    c.token_count = (c.files.map fun f => f.token_count + 100).sum := by
  rw [chunk_files_chunks_eq st cfg h] at hc
  exact (pack_chunk_inv _ _ c hc).1

/-- Witness for C3 on a concrete two-file state. -/
theorem chunk_files_token_sum_witness :
    (_create_chunk 0 [mkFile "a.py", mkFile "b.py"] 200).token_count
      = ((_create_chunk 0 [mkFile "a.py", mkFile "b.py"] 200).files.map
          fun f => f.token_count + 100).sum :=
  chunk_files_token_sum demoState demoCfg _ (by decide) (by decide)

/-- C4: `chunk_files` on an empty filtered list flips the state to an
error with a message and leaves the chunk list untouched; on a single
file whose formatted cost exceeds capacity it yields exactly one chunk
containing that file alone. -/
theorem chunk_files_edge_cases (st : Repo2DocState) (cfg : Config) (f : FileInfo) :
    (st.filtered_files = [] →
      (chunk_files st cfg).status = "error"
        ∧ (chunk_files st cfg).error = some "没有筛选后的文件"
        ∧ (chunk_files st cfg).chunks = st.chunks)
    ∧ (st.filtered_files = [f] →
        cfg.llm.max_input_tokens - cfg.llm.reserved_tokens < f.token_count + 100 →
        (chunk_files st cfg).chunks
          = [_create_chunk 0 [f] (f.token_count + 100)]) := by
  constructor
  · intro he
    simp [chunk_files, he]
  · intro he hbig
    rw [chunk_files_chunks_eq st cfg (by simp [he])]
    rw [he, sort_singleton, pack_single_oversized _ _ (by simpa [fcost] using hbig)]
    simp [fcost]

/-- Witness for C4: the empty filtered list and the oversized single
file, both concrete. -/
theorem chunk_files_edge_cases_witness :
    ((chunk_files (create_initial_state "/repo" none) demoCfg).status = "error"
        ∧ (chunk_files (create_initial_state "/repo" none) demoCfg).error
            = some "没有筛选后的文件"
        ∧ (chunk_files (create_initial_state "/repo" none) demoCfg).chunks
            = (create_initial_state "/repo" none).chunks)
    ∧ (chunk_files stBig demoCfg).chunks
        = [_create_chunk 0 [bigFile] (bigFile.token_count + 100)] :=
  ⟨(chunk_files_edge_cases (create_initial_state "/repo" none) demoCfg bigFile).1 rfl,
   (chunk_files_edge_cases stBig demoCfg bigFile).2 rfl (by decide)⟩

/-! ## Synthesizer lemmas -/

theorem okRun_length (genF : CodeChunk → Nat → Nat → Except String String)
    (genN : CodeChunk → Nat → Nat → String → Except String String) (total : Nat) :
    ∀ (pre : List CodeChunk) (docs : List String) (i : Nat) (cur : String),
      okRun genF genN total i cur pre docs = true → docs.length = pre.length := by
  intro pre
  induction pre with
  | nil =>
    intro docs i cur h
    cases docs with
    | nil => rfl
    | cons d ds => simp [okRun] at h
  | cons c cs ih =>
    intro docs i cur h
    cases docs with
    | nil => simp [okRun] at h
    | cons d ds =>
      simp only [okRun, Bool.and_eq_true, decide_eq_true_eq] at h
      simpa using ih ds (i + 1) d h.2

theorem genLoop_append (genF : CodeChunk → Nat → Nat → Except String String)
    (genN : CodeChunk → Nat → Nat → String → Except String String)
    (st : Repo2DocState) (total : Nat) :
    ∀ (pre : List CodeChunk) (docs : List String) (i : Nat) (cur : String)
      (inter : List String) (rest : List CodeChunk),
      okRun genF genN total i cur pre docs = true →
      genLoop genF genN st total (pre ++ rest) i cur inter
        = genLoop genF genN st total rest (i + pre.length) (docs.getLastD cur)
            (inter ++ docs) := by
  intro pre
  induction pre with
  | nil =>
    intro docs i cur inter rest h
    cases docs with
    | nil => simp
    | cons d ds => simp [okRun] at h
  | cons c cs ih =>
    intro docs i cur inter rest h
    cases docs with
    | nil => simp [okRun] at h
    | cons d ds =>
      simp only [okRun, Bool.and_eq_true, decide_eq_true_eq] at h
      rcases h with ⟨h1, h2⟩
      have hstep : genLoop genF genN st total ((c :: cs) ++ rest) i cur inter
          = genLoop genF genN st total (cs ++ rest) (i + 1) d (inter ++ [d]) := by
        simp only [List.cons_append, genLoop, h1]
        rfl
      rw [hstep, ih ds (i + 1) d (inter ++ [d]) rest h2]
      have e1 : i + 1 + cs.length = i + (c :: cs).length := by simp; omega
      rw [e1, List.getLastD_cons, List.append_assoc, List.singleton_append]

theorem genLoop_error (genF : CodeChunk → Nat → Nat → Except String String)
    (genN : CodeChunk → Nat → Nat → String → Except String String)
    (st : Repo2DocState) (total : Nat) (c : CodeChunk) (rest : List CodeChunk)
    (i : Nat) (cur : String) (inter : List String) (e : String)
    (hfail : (if i = 0 then genF c (i + 1) total else genN c (i + 1) total cur)
        = Except.error e) :
    genLoop genF genN st total (c :: rest) i cur inter
      = { st with
            status := "error"
            error := some ("处理块 " ++ toString (i + 1) ++ " 时出错: " ++ e)
            intermediate_documents := inter } := by
  simp only [genLoop, hfail]

theorem generate_doc_eq (genF : CodeChunk → Nat → Nat → Except String String)
    (genN : CodeChunk → Nat → Nat → String → Except String String)
    (st : Repo2DocState) (h : st.chunks ≠ []) :
    generate_doc genF genN st
      = genLoop genF genN st st.chunks.length st.chunks 0
          st.current_document st.intermediate_documents := by
  rcases hcc : st.chunks with _ | ⟨c0, cs0⟩
  · exact absurd hcc h
  · simp [generate_doc, hcc]

/-- C5: if the model invocation fails on the chunk after a successful
prefix, the whole synthesis aborts: the returned state has status
`"error"`, an error message naming the failing chunk's 1-based index,
the intermediate-document history extended by exactly one document per
successful chunk, and nothing else of the state changed — the chunks
after the failure point never influence the result (the oracles are
unconstrained there). -/
theorem generate_doc_abort (genF : CodeChunk → Nat → Nat → Except String String)
    (genN : CodeChunk → Nat → Nat → String → Except String String)
    (st : Repo2DocState) (pre : List CodeChunk) (c : CodeChunk)
    (rest : List CodeChunk) (docs : List String) (e : String)
    (hch : st.chunks = pre ++ c :: rest)
    (hok : okRun genF genN st.chunks.length 0 st.current_document pre docs = true)
    (hfail : (if pre.length = 0 then genF c (pre.length + 1) st.chunks.length
              else genN c (pre.length + 1) st.chunks.length
                  (docs.getLastD st.current_document)) = Except.error e) :
    generate_doc genF genN st
      = { st with
            status := "error"
            error := some ("处理块 " ++ toString (pre.length + 1) ++ " 时出错: " ++ e)
            intermediate_documents := st.intermediate_documents ++ docs }
      ∧ docs.length = pre.length := by
  refine ⟨?_, okRun_length _ _ _ _ _ _ _ hok⟩
  have hne : st.chunks ≠ [] := by simp [hch]
  rw [generate_doc_eq genF genN st hne]
  rw [hch] at hok hfail ⊢
  rw [genLoop_append genF genN st _ pre docs 0 st.current_document
        st.intermediate_documents (c :: rest) hok]
  simp only [Nat.zero_add]
  rw [genLoop_error genF genN st _ c rest pre.length _ _ e hfail, hch]

/-- Witness for C5: of three chunks the second fails; the history ends
with exactly the one successful document. -/
theorem generate_doc_abort_witness :
    (generate_doc genFdemo genNdemo stGen
      = { stGen with
            status := "error"
            error := some ("处理块 " ++ toString (([chunkA] : List CodeChunk).length + 1)
                ++ " 时出错: " ++ "boom")
            intermediate_documents := stGen.intermediate_documents ++ ["d1"] }
      ∧ (["d1"] : List String).length = ([chunkA] : List CodeChunk).length) :=
  generate_doc_abort genFdemo genNdemo stGen [chunkA] chunkB [chunkC] ["d1"] "boom"
    rfl (by decide) (by decide)

/-- C10: on a failed synthesis the state's `current_document` keeps its
pre-stage value even though earlier chunks succeeded, while
`intermediate_documents` already holds each successful chunk's output;
the running document is committed only when every chunk completes; the
initial state's document is empty. -/
theorem generate_doc_frame :
    (∀ (genF : CodeChunk → Nat → Nat → Except String String)
        (genN : CodeChunk → Nat → Nat → String → Except String String)
        (st : Repo2DocState) (pre : List CodeChunk) (c : CodeChunk)
        (rest : List CodeChunk) (docs : List String) (e : String),
      st.chunks = pre ++ c :: rest →
      okRun genF genN st.chunks.length 0 st.current_document pre docs = true →
      (if pre.length = 0 then genF c (pre.length + 1) st.chunks.length
       else genN c (pre.length + 1) st.chunks.length
           (docs.getLastD st.current_document)) = Except.error e →
      (generate_doc genF genN st).current_document = st.current_document
        ∧ (generate_doc genF genN st).intermediate_documents
            = st.intermediate_documents ++ docs)
    ∧ (∀ (genF : CodeChunk → Nat → Nat → Except String String)
        (genN : CodeChunk → Nat → Nat → String → Except String String)
        (st : Repo2DocState) (docs : List String),
      st.chunks ≠ [] →
      okRun genF genN st.chunks.length 0 st.current_document st.chunks docs = true →
      (generate_doc genF genN st).current_document
          = docs.getLastD st.current_document
        ∧ (generate_doc genF genN st).status = "generated")
    ∧ (∀ (rp : String) (cp : Option String),
        (create_initial_state rp cp).current_document = "") := by
  refine ⟨?_, ?_, fun rp cp => rfl⟩
  · intro genF genN st pre c rest docs e hch hok hfail
    have hne : st.chunks ≠ [] := by simp [hch]
    rw [generate_doc_eq genF genN st hne]
    rw [hch] at hok hfail ⊢
    rw [genLoop_append genF genN st _ pre docs 0 st.current_document
          st.intermediate_documents (c :: rest) hok]
    simp only [Nat.zero_add]
    rw [genLoop_error genF genN st _ c rest pre.length _ _ e hfail]
    exact ⟨rfl, rfl⟩
  · intro genF genN st docs hne hok
    rw [generate_doc_eq genF genN st hne]
    have happ : genLoop genF genN st st.chunks.length st.chunks 0
          st.current_document st.intermediate_documents
        = genLoop genF genN st st.chunks.length (st.chunks ++ []) 0
            st.current_document st.intermediate_documents := by
      rw [List.append_nil]
    rw [happ, genLoop_append genF genN st _ st.chunks docs 0 st.current_document
          st.intermediate_documents [] hok]
    exact ⟨rfl, rfl⟩

/-- Witness for C10: the failure frame on the three-chunk fixture, the
success commit on an all-success oracle, and the initial document. -/
theorem generate_doc_frame_witness :
    ((generate_doc genFdemo genNdemo stGen).current_document
        = stGen.current_document
      ∧ (generate_doc genFdemo genNdemo stGen).intermediate_documents
          = stGen.intermediate_documents ++ ["d1"])
    ∧ ((generate_doc genFdemo genNok stGen).current_document
        = (["d1", "d2", "d2"] : List String).getLastD stGen.current_document
      ∧ (generate_doc genFdemo genNok stGen).status = "generated")
    ∧ (create_initial_state "/repo" none).current_document = "" :=
  ⟨generate_doc_frame.1 genFdemo genNdemo stGen [chunkA] chunkB [chunkC] ["d1"]
      "boom" rfl (by decide) (by decide),
   generate_doc_frame.2.1 genFdemo genNok stGen ["d1", "d2", "d2"] (by decide)
      (by decide),
   generate_doc_frame.2.2 "/repo" none⟩

/-! ## Rendering (C6) -/

/-- C6: evaluation of `_create_chunk` on a two-file chunk. The
combined content equals the `'='` banner prepended once to the parts
joined by a bare blank line (Python operator precedence in
`"\n\n" + "=" * 60 + "\n\n".join(parts)`), and differs from the
spec-worded rendering in which the `'='` separator line stands between
consecutive files. -/
theorem create_chunk_join_divergence :
    (_create_chunk 0 [fileA, fileB] 202).combined_content
        = "\n\n" ++ String.mk (List.replicate 60 '=')
            ++ (format_file_for_prompt fileA.path fileA.content
                ++ ("\n\n" ++ format_file_for_prompt fileB.path fileB.content))
      ∧ (_create_chunk 0 [fileA, fileB] 202).combined_content
          ≠ spec_combined_content [fileA, fileB] := by
  constructor
  · decide
  · decide

/-! ## Prioritizer scenario (C7) -/

/-- C7 as stated is false: on the spec's five-file scenario the
prioritizer does not emit `lib/helpers.js` last, because modules are
emitted in alphabetical order and `"lib" < "src"`. -/
theorem prioritize_demo_counterexample :
    _sort_files_by_priority demoRepoFiles
      ≠ List.map mkFile
          ["README.md", "package.json", "src/index.js", "src/util.js",
           "lib/helpers.js"] := by
  decide

/-- C7 amended: the prioritizer yields README, package.json, then the
`lib` module before the `src` module (alphabetical module order), with
`index` before `util` inside `src` by the entry-pattern rule. -/
theorem prioritize_demo_actual :
    _sort_files_by_priority demoRepoFiles
      = List.map mkFile
          ["README.md", "package.json", "lib/helpers.js", "src/index.js",
           "src/util.js"] := by
  decide

/-! ## Determinism of the prioritizer (C8) -/

theorem pairwise_path_lt {l : List FileInfo}
    (hle : l.Pairwise rPath) (hne : l.Pairwise fun a b => a.path ≠ b.path) :
    l.Pairwise fun a b => a.path < b.path := by
  induction l with
  | nil => exact List.Pairwise.nil
  | cons a t ih =>
    cases hle with
    | cons h1 t1 =>
      cases hne with
      | cons h2 t2 =>
        exact List.Pairwise.cons
          (fun b hb => lt_of_le_of_ne (h1 b hb) (h2 b hb)) (ih t1 t2)

theorem sortFilteredByPath_perm_eq (l1 l2 : List FileInfo) (hp : l1.Perm l2)
    (hd : l1.Pairwise fun a b => a.path ≠ b.path) :
    sortFilteredByPath l1 = sortFilteredByPath l2 := by
  have hd2 : l2.Pairwise (fun a b => a.path ≠ b.path) :=
    (hp.pairwise_iff (fun hxy => Ne.symm hxy)).1 hd
  have hp1 : (List.insertionSort rPath l1).Perm l1 := List.perm_insertionSort rPath l1
  have hp2 : (List.insertionSort rPath l2).Perm l2 := List.perm_insertionSort rPath l2
  have hs1 : (List.insertionSort rPath l1).Pairwise rPath :=
    List.sorted_insertionSort rPath l1
  have hs2 : (List.insertionSort rPath l2).Pairwise rPath :=
    List.sorted_insertionSort rPath l2
  have hd1' : (List.insertionSort rPath l1).Pairwise (fun a b => a.path ≠ b.path) :=
    (hp1.pairwise_iff (fun hxy => Ne.symm hxy)).2 hd
  have hd2' : (List.insertionSort rPath l2).Pairwise (fun a b => a.path ≠ b.path) :=
    (hp2.pairwise_iff (fun hxy => Ne.symm hxy)).2 hd2
  haveI : IsAntisymm FileInfo (fun a b => a.path < b.path) :=
    ⟨fun _ _ h1 h2 => absurd h2 (not_lt.mpr (le_of_lt h1))⟩
  exact List.eq_of_perm_of_sorted (hp1.trans (hp.trans hp2.symm))
    (pairwise_path_lt hs1 hd1') (pairwise_path_lt hs2 hd2')

/-- C8: the prioritizer (the filter stage's path sort followed by
`_sort_files_by_priority`) is deterministic over sets: on two
presentations of the same file set — with pairwise distinct paths, as
produced by a filesystem scan — it yields identical sequences. -/
theorem prioritize_deterministic (l1 l2 : List FileInfo) (hp : l1.Perm l2)
    (hd : l1.Pairwise fun a b => a.path ≠ b.path) :
    prioritizePipeline l1 = prioritizePipeline l2 :=
  congrArg _sort_files_by_priority (sortFilteredByPath_perm_eq l1 l2 hp hd)

/-- Witness for C8 on two presentations of a two-file set. -/
theorem prioritize_deterministic_witness :
    prioritizePipeline [mkFile "b.py", mkFile "a.py"]
      = prioritizePipeline [mkFile "a.py", mkFile "b.py"] :=
  prioritize_deterministic _ _ (by decide) (by decide)

/-! ## Token cost contract (C9) -/

theorem estimate_tokens_eq (s : String) : estimate_tokens s = s.length / 3 := by
  unfold estimate_tokens
  split
  · rename_i h
    rw [h]
    decide
  · rfl

theorem length_zero_eq_empty {s : String} (h : s.length = 0) : s = "" := by
  cases s with
  | mk data =>
    cases data with
    | nil => rfl
    | cons c cs => simp [String.length] at h

/-- C9: both token cost functions return a non-negative count, are
deterministic for identical input and yield zero on empty input;
`estimate_tokens` is monotonically non-decreasing in input length, and
`count_tokens` is so for every length-monotone encoding scheme. -/
theorem token_cost_contract :
    (∀ s : String, 0 ≤ estimate_tokens s
        ∧ ∀ encode : String → List Nat, 0 ≤ count_tokens encode s)
    ∧ estimate_tokens "" = 0
    ∧ (∀ encode : String → List Nat, count_tokens encode "" = 0)
    ∧ (∀ s t : String, s = t → estimate_tokens s = estimate_tokens t)
    ∧ (∀ (encode : String → List Nat) (s t : String), s = t →
        count_tokens encode s = count_tokens encode t)
    ∧ (∀ s t : String, s.length ≤ t.length → estimate_tokens s ≤ estimate_tokens t)
    ∧ (∀ encode : String → List Nat,
        (∀ a b : String, a.length ≤ b.length → (encode a).length ≤ (encode b).length) →
        ∀ s t : String, s.length ≤ t.length →
          count_tokens encode s ≤ count_tokens encode t) := by
  refine ⟨fun s => ⟨Nat.zero_le _, fun encode => Nat.zero_le _⟩, rfl,
    fun encode => rfl, fun s t h => by rw [h], fun encode s t h => by rw [h],
    fun s t h => ?_, fun encode hmono s t h => ?_⟩
  · rw [estimate_tokens_eq, estimate_tokens_eq]
    exact Nat.div_le_div_right h
  · by_cases hs : s = ""
    · have h0 : count_tokens encode s = 0 := by rw [hs]; rfl
      rw [h0]
      exact Nat.zero_le _
    · have ht : t ≠ "" := by
        intro hte
        rw [hte] at h
        have h0 : s.length = 0 := by
          have hle : s.length ≤ 0 := by simpa using h
          omega
        exact hs (length_zero_eq_empty h0)
      unfold count_tokens
      rw [if_neg hs, if_neg ht]
      exact hmono s t h

/-- Witness for C9: monotonicity at concrete inputs, for
`estimate_tokens` and for `count_tokens` over a concrete
length-monotone encoder. -/
theorem token_cost_contract_witness :
    estimate_tokens "abc" ≤ estimate_tokens "abcdef"
      ∧ count_tokens (fun s => List.replicate s.length 0) "ab"
          ≤ count_tokens (fun s => List.replicate s.length 0) "abcd"
      ∧ estimate_tokens "ab" = estimate_tokens "ab" :=
  ⟨token_cost_contract.2.2.2.2.2.1 "abc" "abcdef" (by decide),
   token_cost_contract.2.2.2.2.2.2 (fun s => List.replicate s.length 0)
     (fun a b hab => by simpa using hab) "ab" "abcd" (by decide),
   token_cost_contract.2.2.2.1 "ab" "ab" rfl⟩

end Repo2Doc
